import Mathlib

/-!
Verification of the micropython-iot link core.

Shallow embedding of the protocol core of the repository:
* `src/iot/__init__.py` — `gmid` (message-id generator) and `isnew`
  (sliding-window duplicate filter);
* `src/client.py` — `Client.write` (frame encoder), `Client._reader`
  (frame classifier), keepalive interval;
* `src/server.py` — `Connection.go` (accept/dispatch), `Connection._reconnect`,
  `Connection._process_str` (frame decoder), `Connection.write`, keepalive
  interval.

Bytes are modelled as `Nat` values below 256; byte strings as `List Nat`.
The cooperative scheduler is elided: each operation is modelled as the
state transformation it performs when it runs to completion.
-/

set_option maxRecDepth 8000

namespace MpyIot

/-! ## Message-id generator (`gmid`, src/iot/__init__.py lines 11-16)

The generator holds state `mid`, yields it, then steps
`mid = (mid + 1) & 0xff; mid = mid if mid else 1`.  `gmidVal n` is the
n-th yielded value (0-based). -/

def gmidStep (mid : Nat) : Nat :=
  let m := (mid + 1) &&& 0xff
  if m = 0 then 1 else m

def gmidVal (n : Nat) : Nat := gmidStep^[n] 0

/-! ## Duplicate filter (`isnew`, src/iot/__init__.py lines 19-29)

State is a 32-byte array (`List Nat` of length 32, entries < 256).
`isnew mid lst` returns the `res` boolean and the updated array:
```
idx = mid >> 3
bit = 1 << (mid & 7)
res = not (lst[idx] & bit)
lst[idx] |= bit
lst[(idx + 16 & 0x1f)] = 0
```
The `mid == -1` reset branch is modelled separately as `isnewReset`. -/

def isnewReset : List Nat := List.replicate 32 0

def isnew (mid : Nat) (lst : List Nat) : Bool × List Nat :=
  let idx := mid >>> 3
  let bit := 1 <<< (mid &&& 7)
  let res := lst.getD idx 0 &&& bit = 0
  let lst1 := lst.set idx (lst.getD idx 0 ||| bit)
  let lst2 := lst1.set ((idx + 16) % 32) 0
  (res, lst2)

/-- Run a sequence of `isnew` calls, keeping only the final state. -/
def isnewRun (lst : List Nat) : List Nat → List Nat
  | [] => lst
  | m :: ms => isnewRun (isnew m lst).2 ms

/-! ## ASCII-hex codec (`ubinascii.hexlify` / `unhexlify`)

`hexlify` maps each byte to two lowercase ASCII-hex characters;
`unhexlify` parses pairs of hex characters (accepting upper case, as
`binascii.unhexlify` does) and fails on a non-hex character or an odd
length. -/

def hexDigit (n : Nat) : Nat := if n < 10 then 48 + n else 87 + n

def hexlifyByte (b : Nat) : List Nat := [hexDigit (b / 16), hexDigit (b % 16)]

def hexlify : List Nat → List Nat
  | [] => []
  | b :: bs => hexlifyByte b ++ hexlify bs

def unhexDigit (c : Nat) : Option Nat :=
  if 48 ≤ c ∧ c ≤ 57 then some (c - 48)
  else if 97 ≤ c ∧ c ≤ 102 then some (c - 87)
  else if 65 ≤ c ∧ c ≤ 70 then some (c - 55)
  else none

def unhexlify : List Nat → Option (List Nat)
  | [] => some []
  | [_] => none
  | c1 :: c2 :: rest => do
      let d1 ← unhexDigit c1
      let d2 ← unhexDigit c2
      let bs ← unhexlify rest
      pure ((d1 * 16 + d2) :: bs)

/-! ## Client frame encoder (`Client.write` / `Client._write`, src/client.py)

`Client.write` (lines 184-214):
```
if buf is None: buf = b''
if len(buf) > 65535: raise ValueError("Message longer than 65535")
mid = next(getmid)
preheader = bytearray(5)
preheader[0] = mid
preheader[1] = 0 if header is None else len(header)
preheader[2] = (len(buf) & 0xFF) - (1 if buf.endswith(b"\n") else 0)
preheader[3] = (len(buf) >> 8) & 0xFF
preheader[4] = 0
if qos: preheader[4] |= 0x01
preheader = ubinascii.hexlify(preheader)
if header is not None: header = ubinascii.hexlify(header)
...
await self._write(preheader, header, buf, qos, mid)
```
Assigning a value outside `0..255` to a `bytearray` element raises
`ValueError`; `setByte` models this check.  `_write` (lines 275-332)
sends preheader, header, body and a terminating newline unless the body
already ends in one, and adds `mid` to the pending-ACK set when `qos`. -/

def setByte (v : Int) : Except String Nat :=
  if 0 ≤ v ∧ v < 256 then .ok v.toNat else .error "byte out of range"

/-- `buf.endswith(b"\n")` on a byte string. -/
def endsNl (buf : List Nat) : Bool := buf.getLast? = some 10

/-- `0 if header is None else len(header)`. -/
def hdrLen (header : Option (List Nat)) : Nat :=
  match header with | none => 0 | some h => h.length

/-- The hex-encoded user header as sent on the wire (nothing when the
header is `None`). -/
def hexHeader (header : Option (List Nat)) : List Nat :=
  match header with | none => [] | some h => hexlify h

/-- The five preheader bytes built by `Client.write`, with the
`bytearray` range check on each assignment. -/
def mkPreheader (mid : Nat) (header : Option (List Nat)) (buf : List Nat)
    (qos : Bool) : Except String (List Nat) := do
  let b0 ← setByte (mid : Int)
  let b1 ← setByte (hdrLen header : Int)
  let b2 ← setByte ((buf.length &&& 0xFF : Nat) - (if endsNl buf then 1 else 0) : Int)
  let b3 ← setByte (((buf.length >>> 8) &&& 0xFF : Nat) : Int)
  let b4 ← setByte ((if qos then 1 else 0 : Nat) : Int)
  pure [b0, b1, b2, b3, b4]

/-- Wire bytes produced by `Client.write`/`Client._write` for one message:
hex preheader, hex header (when present), body, newline (unless the body
already ends in one). -/
def encodeWire (mid : Nat) (header : Option (List Nat)) (buf : List Nat)
    (qos : Bool) : Except String (List Nat) :=
  (mkPreheader mid header buf qos).map fun ph =>
    hexlify ph ++ hexHeader header ++ buf ++ (if endsNl buf then [] else [10])

/-- State of the client relevant to `write`: how many values have been
drawn from the module-level `getmid` generator, the pending-ACK set
(the `SetByte` bitmap, modelled as a set of naturals), and the bytes
sent on the socket so far. -/
structure ClientState where
  midCount : Nat
  acksPend : List Nat
  sent : List Nat
  deriving Repr, DecidableEq

/-- `Client.write` followed by the send in `Client._write`, as the state
transformation performed when the call runs to completion (the ordering
wait loop and the ACK wait are scheduling, elided here).  On error the
state reached so far is returned unchanged thereafter: the size check
precedes `next(getmid)`, which precedes the preheader construction,
which precedes the pending-ACK insertion and the socket send. -/
def clientWrite (st : ClientState) (header : Option (List Nat))
    (buf : List Nat) (qos : Bool) : ClientState × Except String (List Nat) :=
  if buf.length > 65535 then (st, .error "Message longer than 65535")
  else
    let mid := gmidVal st.midCount
    let st1 : ClientState := { st with midCount := st.midCount + 1 }
    match encodeWire mid header buf qos with
    | .error e => (st1, .error e)
    | .ok wire =>
        let st2 : ClientState :=
          { st1 with
            acksPend := if qos then st1.acksPend.insert mid else st1.acksPend
            sent := st1.sent ++ wire }
        (st2, .ok wire)

/-! ## Server frame decoder (`Connection._process_str`, src/server.py 283-316)

`_read` splits the byte stream on `\n` and hands the non-empty lines to
`_process_str`.  For one line:
```
preheader = bytearray(ubinascii.unhexlify(line[:10].encode()))
mid = preheader[0]
if preheader[4] == 0x2C: self._ack_mid = mid; continue
if not mid: isnew(-1, self._newlist)
if isnew(mid, self._newlist):
    if preheader[1] != 0:
        header = bytearray(ubinascii.unhexlify(line[10:10+preheader[1]*2]))
        line = line[10+preheader[1]*2:]
    else:
        header = None
        line = line[10:]
    ret.append((header, line))
if preheader[4] & 0x01 == 1:
    preheader[1] = preheader[2] = preheader[3] = 0
    preheader[4] = 0x2C
    buf = "{}\n".format(ubinascii.hexlify(preheader).decode())
    self._loop.create_task(self._sendack(buf, mid=preheader[0]))
```
A failing `unhexlify` or an out-of-range index raises; this is the
`none` result. -/

/-- The ACK frame for `mid`: hex of `[mid, 0, 0, 0, 0x2C]` plus newline.
Both `Connection._process_str` (server) and `Client._sendack` (client)
emit exactly this. -/
def ackWire (mid : Nat) : List Nat := hexlify [mid, 0, 0, 0, 0x2C] ++ [10]

structure ProcOut where
  newlist : List Nat
  ackMid : Int
  ret : List (Option (List Nat) × List Nat)
  acksOut : List (List Nat)
  deriving Repr, DecidableEq

/-- One non-empty line through `Connection._process_str`, threading the
per-connection de-dup state `nl` and the last-received-ACK mid. -/
def processLine (nl : List Nat) (ackMid : Int) (line : List Nat) :
    Option ProcOut := do
  let ph ← unhexlify (line.take 10)
  if ph.length = 5 then
    let mid := ph.getD 0 0
    if ph.getD 4 0 = 0x2C then
      pure ⟨nl, (mid : Int), [], []⟩
    else
      let nl1 := if mid = 0 then isnewReset else nl
      let r := isnew mid nl1
      let ret ←
        (if r.1 then
          (if ph.getD 1 0 ≠ 0 then do
            let hdr ← unhexlify ((line.drop 10).take (ph.getD 1 0 * 2))
            pure [(some hdr, line.drop (10 + ph.getD 1 0 * 2))]
          else
            pure [((none : Option (List Nat)), line.drop 10)])
        else pure [])
      let acks := if ph.getD 4 0 &&& 0x01 = 1 then [ackWire mid] else []
      pure ⟨r.2, ackMid, ret, acks⟩
  else none

/-- First line of a byte stream: `data.split('\n')[0]`. -/
def firstLine (data : List Nat) : List Nat := data.takeWhile (· ≠ 10)

/-! ## Client frame classifier (`Client._reader`, src/client.py 439-460)

Per received frame `(preheader, header, line)`:
```
mid = preheader[0]
if preheader[4] & 0x2C == 0x2C:  # ACK
    self._acks_pend.discard(mid)
    continue
if not mid: isnew(-1)
if isnew(mid): self._lines.append((header, line))
if preheader[4] & 0x01 == 1: await self._sendack(mid)
```
`_sendack` (lines 462-469) emits `ackWire mid`.  `_acks_pend` is a
`SetByte`; modelled from the spec: `SetByte` is imported by
`src/client.py` but its definition is not under src/; per spec section 4.3
it is a set of integers 0..255 with `add`/`discard`/`contains`, here a
set of naturals. -/

structure ClientRdState where
  acksPend : List Nat
  lines : List (Option (List Nat) × List Nat)
  newlist : List Nat
  deriving Repr, DecidableEq

def clientReaderStep (st : ClientRdState) (ph : List Nat)
    (header : Option (List Nat)) (line : List Nat) :
    ClientRdState × List (List Nat) :=
  let mid := ph.getD 0 0
  if ph.getD 4 0 &&& 0x2C = 0x2C then
    ({ st with acksPend := st.acksPend.filter (· ≠ mid) }, [])
  else
    let nl1 := if mid = 0 then isnewReset else st.newlist
    let r := isnew mid nl1
    let lines' := if r.1 then st.lines ++ [(header, line)] else st.lines
    let acks := if ph.getD 4 0 &&& 0x01 = 1 then [ackWire mid] else []
    ({ st with newlist := r.2, lines := lines' }, acks)

/-! ## Server connection state and dispatch (src/server.py)

`Connection` instances persist in the class-level map `_conns`
(client_id → Connection).  `Connection.__init__` (lines 164-193) sets the
fields modelled below; `Connection._reconnect` (lines 195-198) replaces
the socket and re-arms the two write-pause flags; `Connection.go`
(lines 106-130) parses the handshake line and dispatches.  Sockets are
modelled as numeric handles; `print` diagnostics and task spawns are
modelled as effects. -/

structure Conn where
  sock : Option Nat
  clId : List Nat
  initStr : List Nat
  newlist : List Nat
  wrPause : Bool
  awaitClient : Bool
  midCount : Nat
  lines : List (Option (List Nat) × List Nat)
  acksPend : List Nat
  ackMid : Int
  txMid : Int
  sent : List Nat
  deriving Repr, DecidableEq

/-- `Connection.__init__` field values (lines 164-193). -/
def newConn (cSock : Nat) (clientId initStr : List Nat) : Conn where
  sock := some cSock
  clId := clientId
  initStr := initStr
  newlist := List.replicate 32 0
  wrPause := true
  awaitClient := true
  midCount := 0
  lines := []
  acksPend := []
  ackMid := -1
  txMid := -1
  sent := []

/-- `Connection._reconnect` (lines 195-198): only the socket and the two
write-pause flags are assigned. -/
def reconnect (c : Conn) (cSock : Nat) : Conn :=
  { c with sock := some cSock, wrPause := true, awaitClient := true }

/-- `Connection.status` (lines 205-206): `self._sock is not None`. -/
def connStatus (c : Conn) : Bool := c.sock.isSome

inductive Effect where
  | closeSock
  | sendBytes (bs : List Nat)
  | spawnRead
  | spawnKeepalive
  | warnUnexpected
  deriving Repr, DecidableEq

structure ServerState where
  conns : List Nat → Option Conn
  expected : List (List Nat)
  serverSock : Option Nat

def updateConns (conns : List Nat → Option Conn) (clientId : List Nat)
    (c : Conn) : List Nat → Option Conn :=
  fun y => if y = clientId then some c else conns y

/-- `Connection.go` (src/server.py lines 106-130) on the first received
data `data` (which contains at least one newline) of an accepted socket:
```
line, init_str = data.split('\n', 1)
preheader = bytearray(ubinascii.unhexlify(line[:10].encode()))
mid = preheader[0]
if mid != 0x2C: c_sock.close(); return       # wrong protocol
client_id = line[10:]
if cls._server_sock is None:
    cls._server_sock = s_sock; cls._expected.update(expected)
if client_id in cls._conns:
    if cls._conns[client_id].status():
        c_sock.close()                        # duplicate client ignored
    else:
        cls._conns[client_id]._reconnect(c_sock)
else:
    Connection(loop, to_secs, c_sock, client_id, init_str, verbose)
```
`Connection.__init__` installs itself in `_conns`, removes its id from
`_expected` (printing a warning on `KeyError` when the id was not
expected), and spawns the `_read` and `_keepalive` tasks.  A raising
`unhexlify` or preheader index error is the `none` result. -/
def go (st : ServerState) (data : List Nat) (cSock sSock : Nat)
    (expected : List (List Nat)) : Option (ServerState × List Effect) := do
  let line := firstLine data
  let initStr := data.drop (line.length + 1)
  let ph ← unhexlify (line.take 10)
  if ph.length = 0 then none
  else
    let mid := ph.getD 0 0
    if mid ≠ 0x2C then
      some (st, [Effect.closeSock])
    else if ph.length ≠ 5 then none
    else
      let clientId := line.drop 10
      let st1 :=
        if st.serverSock = none then
          { st with serverSock := some sSock, expected := st.expected ++ expected }
        else st
      match st1.conns clientId with
      | some c =>
        if connStatus c then
          some (st1, [Effect.closeSock])
        else
          some ({ st1 with
                  conns := updateConns st1.conns clientId (reconnect c cSock) },
                [])
      | none =>
        let warn := clientId ∉ st1.expected
        let exp1 := if clientId ∈ st1.expected then
            st1.expected.filter (· ≠ clientId) else st1.expected
        some ({ st1 with
                conns := updateConns st1.conns clientId
                  (newConn cSock clientId initStr),
                expected := exp1 },
              (if warn then [Effect.warnUnexpected] else [])
                ++ [Effect.spawnRead, Effect.spawnKeepalive])

/-! ## Server write (`Connection.write`, src/server.py lines 326-347)

```
if len(line) > 65535: raise ValueError("Message longer than 65535")
preheader = bytearray(5)
preheader[0] = next(self._getmid)
preheader[1] = 0 if header is None else len(header)
preheader[2] = len(line) & 0xFF
preheader[3] = (len(line) >> 8) & 0xFF
preheader[4] = 0
if qos: preheader[4] |= 0x01
...
fstr = "{}{}{}" if line.endswith("\n") else "{}{}{}\n"
buf = fstr.format(preheader, header or "", line)
await self._vwrite(buf, mid, qos)
```
`_vwrite` (lines 349-375) sends `buf`, then increments `_tx_mid` and adds
`mid` to `_acks_pend`. -/

def serverPreheader (mid : Nat) (header : Option (List Nat))
    (line : List Nat) (qos : Bool) : Except String (List Nat) := do
  let b0 ← setByte (mid : Int)
  let b1 ← setByte (hdrLen header : Int)
  let b2 ← setByte ((line.length &&& 0xFF : Nat) : Int)
  let b3 ← setByte (((line.length >>> 8) &&& 0xFF : Nat) : Int)
  let b4 ← setByte ((if qos then 1 else 0 : Nat) : Int)
  pure [b0, b1, b2, b3, b4]

def serverWrite (c : Conn) (header : Option (List Nat)) (line : List Nat)
    (qos : Bool) : Conn × Except String (List Nat) :=
  if line.length > 65535 then (c, .error "Message longer than 65535")
  else
    let mid := gmidVal c.midCount
    let c1 : Conn := { c with midCount := c.midCount + 1 }
    match serverPreheader mid header line qos with
    | .error e => (c1, .error e)
    | .ok ph =>
        let wire := hexlify ph ++ hexHeader header
          ++ line ++ (if endsNl line then [] else [10])
        ({ c1 with
           txMid := c1.txMid + 1
           acksPend := c1.acksPend.insert mid
           sent := c1.sent ++ wire }, .ok wire)

/-! ## Keepalive intervals and keepalive frame -/

/-- src/client.py line 66: `self._tim_ka = timeout // 2`. -/
def clientTimKa (timeout : Nat) : Nat := timeout / 2

/-- src/iot/client.py line 85: `self._tim_ka = timeout // 4`. -/
def iotClientTimKa (timeout : Nat) : Nat := timeout / 4

/-- src/server.py line 82: `to_secs = timeout / 1000` (true division). -/
def serverToSecs (timeout : ℚ) : ℚ := timeout / 1000

/-- src/server.py line 168: `self._tim_ka = self._to_secs / 2`. -/
def serverTimKa (timeout : ℚ) : ℚ := serverToSecs timeout / 2

/-- The server keepalive transmission: `Connection._keepalive` calls
`_vwrite(None, ...)` which sends `'\n'` (src/server.py lines 321-324,
359-360). -/
def serverKeepaliveWire : List Nat := [10]

/-! ## Derived definitions used by the statements below -/

/-- The bit recording mid `k` is set in the 32-byte de-dup array `s`. -/
def midBitSet (s : List Nat) (k : Nat) : Prop :=
  (s.getD (k >>> 3) 0).testBit (k &&& 7)

/-- The preheader byte values produced by `Client.write` for a body not
ending in a newline. -/
def phBytes (mid : Nat) (header : Option (List Nat)) (buf : List Nat)
    (qos : Bool) : List Nat :=
  [mid, hdrLen header, buf.length &&& 255, (buf.length >>> 8) &&& 255,
   if qos then 1 else 0]

/-- Server state before any client has connected. -/
def freshServer : ServerState := ⟨fun _ => none, [], none⟩

/-- A concrete wire handshake: preheader `[0x2C, 0, 2, 0, 0xFF]` in hex,
client id `"c1"`, newline. -/
def handshakeData : List Nat := hexlify [0x2C, 0, 2, 0, 0xFF] ++ [99, 49] ++ [10]

/-- A concrete failed `Connection` (socket closed, so `status()` is
`False`) with non-trivial field values, for the reconnect witness. -/
def wConn : Conn := ⟨none, [99, 49], [], isnewReset, false, false, 3, [], [5], 2, 4, [1]⟩

/-- A server state holding `wConn` for client id `"c1"`. -/
def wState : ServerState :=
  ⟨fun y => if y = [99, 49] then some wConn else none, [], some 5⟩

/-! ## Helper lemmas -/

lemma setByte_nat (n : Nat) (h : n < 256) : setByte (n : Int) = .ok n := by
  unfold setByte
  rw [if_pos ⟨Int.ofNat_nonneg n, by exact_mod_cast h⟩]
  simp

lemma except_bind_ok {α β : Type} (a : α) (f : α → Except String β) :
    ((Except.ok a : Except String α) >>= f) = f a := rfl

lemma except_bind_err {α β : Type} (e : String) (f : α → Except String β) :
    ((Except.error e : Except String α) >>= f) = .error e := rfl

lemma land_255_eq_mod (n : Nat) : n &&& 255 = n % 256 := by
  have h := Nat.and_pow_two_sub_one_eq_mod n 8
  norm_num at h
  exact h

lemma gmidVal_zero : gmidVal 0 = 0 := rfl

lemma gmidVal_succ (n : Nat) : gmidVal (n + 1) = gmidStep (gmidVal n) :=
  Function.iterate_succ_apply' gmidStep n 0

lemma gmidStep_eq (m : Nat) (h : m ≤ 255) :
    gmidStep m = if m = 255 then 1 else m + 1 := by
  show (if (m + 1) &&& 255 = 0 then 1 else (m + 1) &&& 255)
      = if m = 255 then 1 else m + 1
  rw [land_255_eq_mod]
  rcases Nat.lt_or_ge m 255 with hm | hm
  · rw [Nat.mod_eq_of_lt (by omega), if_neg (by omega : ¬m + 1 = 0),
        if_neg (by omega : ¬m = 255)]
  · have h255 : m = 255 := le_antisymm h hm
    subst h255
    norm_num

lemma gmidVal_formula : ∀ n : Nat, gmidVal (n + 1) = n % 255 + 1 := by
  intro n
  induction n with
  | zero => decide
  | succ k ih =>
      rw [gmidVal_succ, ih, gmidStep_eq _ (by omega)]
      split <;> omega

lemma gmidVal_le_255 (n : Nat) : gmidVal n ≤ 255 := by
  cases n with
  | zero => decide
  | succ k => rw [gmidVal_formula]; omega

/-! Lemmas about the duplicate-filter bitmap. -/

lemma isnew_fst (m : Nat) (s : List Nat) :
    (isnew m s).1 = !decide ((s.getD (m >>> 3) 0).testBit (m &&& 7)) := by
  show decide (s.getD (m >>> 3) 0 &&& (1 <<< (m &&& 7)) = 0) = _
  rw [Nat.one_shiftLeft, Nat.and_two_pow]
  rcases hb : (s.getD (m >>> 3) 0).testBit (m &&& 7) <;> simp [hb]

lemma isnew_length (m : Nat) (s : List Nat) : (isnew m s).2.length = s.length := by
  simp [isnew]

lemma getD_set_ne (l : List Nat) (i j v : Nat) (h : i ≠ j) :
    (l.set i v).getD j 0 = l.getD j 0 := by
  simp [List.getD_eq_getElem?_getD, List.getElem?_set_ne h]

lemma getD_set_self (l : List Nat) (i v : Nat) (h : i < l.length) :
    (l.set i v).getD i 0 = v := by
  simp [List.getD_eq_getElem?_getD, List.getElem?_set_self, h]

lemma shift3_lt (k : Nat) (h : k < 256) : k >>> 3 < 32 := by
  rw [Nat.shiftRight_eq_div_pow]
  omega

lemma opp_byte_ne (i : Nat) : (i + 16) % 32 ≠ i := by omega

/-- After `isnew k` the bit for `k` is set. -/
lemma midBitSet_isnew_self (k : Nat) (s : List Nat) (hk : k < 256)
    (hlen : s.length = 32) : midBitSet (isnew k s).2 k := by
  unfold midBitSet isnew
  have hidx : k >>> 3 < 32 := shift3_lt k hk
  rw [getD_set_ne _ _ _ _ (opp_byte_ne _),
      getD_set_self _ _ _ (by rw [hlen]; exact hidx)]
  rw [Nat.one_shiftLeft, Nat.testBit_or, Nat.testBit_two_pow_self]
  simp

/-- A call whose mid does not map to the byte 16 positions behind `k`'s
byte leaves `k`'s bit set. -/
lemma midBitSet_isnew_preserved (m k : Nat) (s : List Nat)
    (hm : (m >>> 3 + 16) % 32 ≠ k >>> 3) (hb : midBitSet s k) :
    midBitSet (isnew m s).2 k := by
  unfold midBitSet isnew at *
  rw [getD_set_ne _ _ _ _ hm]
  rcases eq_or_ne (m >>> 3) (k >>> 3) with he | he
  · rw [he]
    rcases Nat.lt_or_ge (k >>> 3) s.length with hlt | hge
    · rw [getD_set_self _ _ _ hlt, Nat.testBit_or, hb, Bool.true_or]
    · rw [List.set_eq_of_length_le hge]
      exact hb
  · rw [getD_set_ne _ _ _ _ he]
    exact hb

lemma midBitSet_isnewRun (k : Nat) (s : List Nat) (ms : List Nat)
    (hms : ∀ m ∈ ms, (m >>> 3 + 16) % 32 ≠ k >>> 3) (hb : midBitSet s k) :
    midBitSet (isnewRun s ms) k := by
  induction ms generalizing s with
  | nil => exact hb
  | cons m ms ih =>
      exact ih _ (fun x hx => hms x (List.mem_cons_of_mem m hx))
        (midBitSet_isnew_preserved m k s (hms m (List.mem_cons_self m ms)) hb)

/-! ## C3: de-dup sliding window -/

/-- C3 counterexample: on a fresh state, `isnew 0` accepts, `isnew 128`
accepts (one distinct accepted mid), and then `isnew 0` accepts `0` again
— after only 1 < 127 further distinct accepted mids, because the call
with mid 128 zeroes byte `(16 + 16) & 0x1f = 0` holding mid 0's record. -/
theorem isnew_window_counterexample :
    (isnew 0 isnewReset).1 = true ∧
    (isnew 128 (isnew 0 isnewReset).2).1 = true ∧
    128 ≠ 0 ∧
    (isnew 0 (isnew 128 (isnew 0 isnewReset).2).2).1 = true := by decide

/-- C3 (amended): after `isnew k` is called on a 32-byte state, every
subsequent `isnew k` returns `False` as long as no intervening call used
a mid `m` whose bitmap byte `m >> 3` is exactly 16 bytes (mod 32) ahead
of `k`'s byte (with in-order mid sequences this first happens about 128
mids later); an arbitrary mid sequence can re-admit `k` after a single
intervening accepted mid. -/
theorem isnew_window (k : Nat) (s : List Nat) (ms : List Nat)
    (hk : k < 256) (hlen : s.length = 32)
    (hms : ∀ m ∈ ms, (m >>> 3 + 16) % 32 ≠ k >>> 3) :
    (isnew k (isnewRun (isnew k s).2 ms)).1 = false := by
  have hb : midBitSet (isnewRun (isnew k s).2 ms) k :=
    midBitSet_isnewRun k _ ms hms (midBitSet_isnew_self k s hk hlen)
  rw [isnew_fst]
  unfold midBitSet at hb
  rw [hb]
  rfl

/-- Witness for C3 (amended): `k = 0` on a fresh state, followed by the
in-order mids 1, 2, 3, is still rejected. -/
theorem isnew_window_witness :
    (0 : Nat) < 256 ∧ isnewReset.length = 32 ∧
    (isnew 0 (isnewRun (isnew 0 isnewReset).2 [1, 2, 3])).1 = false :=
  ⟨by decide, by decide,
    isnew_window 0 isnewReset [1, 2, 3] (by decide) (by decide) (by decide)⟩

/-! ## C4: mid generator sequence -/

/-- C4: `gmid` yields 0 exactly once, as its first value; for `n ≥ 1`
the n-th value is `(n - 1) % 255 + 1`, which lies in `[1, 255]`. -/
theorem gmid_sequence :
    gmidVal 0 = 0 ∧
    (∀ n : Nat, 1 ≤ n → gmidVal n = (n - 1) % 255 + 1) ∧
    (∀ n : Nat, 1 ≤ n → 1 ≤ gmidVal n ∧ gmidVal n ≤ 255) := by
  refine ⟨rfl, ?_, ?_⟩
  · intro n hn
    obtain ⟨k, rfl⟩ := Nat.exists_eq_add_of_le hn
    rw [Nat.add_comm, gmidVal_formula]
    simp
  · intro n hn
    obtain ⟨k, rfl⟩ := Nat.exists_eq_add_of_le hn
    rw [Nat.add_comm, gmidVal_formula]
    omega

/-- Witness for C4 at `n = 256`: the value wraps back to 1. -/
theorem gmid_sequence_witness :
    gmidVal 0 = 0 ∧ gmidVal 256 = (256 - 1) % 255 + 1 ∧
    1 ≤ gmidVal 256 ∧ gmidVal 256 ≤ 255 := by
  obtain ⟨h0, h1, h2⟩ := gmid_sequence
  obtain ⟨h3, h4⟩ := h2 256 (by norm_num)
  exact ⟨h0, h1 256 (by norm_num), h3, h4⟩

/-! Lemmas about the hex codec and the wire layout. -/

lemma option_bind_some {α β : Type} (a : α) (f : α → Option β) :
    ((some a : Option α) >>= f) = f a := rfl

lemma hexDigit_ne_10 (d : Nat) : hexDigit d ≠ 10 := by
  unfold hexDigit
  split <;> omega

lemma hexlify_ne_10 (bs : List Nat) : ∀ b ∈ hexlify bs, b ≠ 10 := by
  induction bs with
  | nil => intro b hb; cases hb
  | cons x xs ih =>
      intro b hb
      rcases List.mem_append.1 hb with h | h
      · simp only [hexlifyByte, List.mem_cons, List.not_mem_nil, or_false] at h
        rcases h with rfl | rfl
        · exact hexDigit_ne_10 _
        · exact hexDigit_ne_10 _
      · exact ih b h

lemma hexlify_length (bs : List Nat) : (hexlify bs).length = 2 * bs.length := by
  induction bs with
  | nil => rfl
  | cons x xs ih => simp [hexlify, hexlifyByte, ih]; ring

lemma unhexDigit_hexDigit : ∀ d < 16, unhexDigit (hexDigit d) = some d := by decide

lemma unhexlify_hexlify (bs : List Nat) (h : ∀ b ∈ bs, b < 256) :
    unhexlify (hexlify bs) = some bs := by
  induction bs with
  | nil => rfl
  | cons b bs ih =>
      have hb : b < 256 := h b (List.mem_cons_self b bs)
      show unhexlify (hexDigit (b / 16) :: hexDigit (b % 16) :: hexlify bs)
          = some (b :: bs)
      rw [unhexlify, unhexDigit_hexDigit (b / 16) (by omega),
          option_bind_some, unhexDigit_hexDigit (b % 16) (by omega),
          option_bind_some, ih (fun x hx => h x (List.mem_cons_of_mem b hx)),
          option_bind_some]
      have hb16 : b / 16 * 16 + b % 16 = b := by omega
      rw [hb16]
      rfl

lemma firstLine_append (l r : List Nat) (h : ∀ x ∈ l, x ≠ 10) :
    firstLine (l ++ 10 :: r) = l := by
  unfold firstLine
  induction l with
  | nil =>
      rw [List.nil_append, List.takeWhile_cons]
      simp
  | cons a l ih =>
      rw [List.cons_append, List.takeWhile_cons]
      have ha : a ≠ 10 := h a (List.mem_cons_self a l)
      rw [if_pos (by simpa using ha),
          ih (fun x hx => h x (List.mem_cons_of_mem a hx))]

lemma getD_isnewReset (i : Nat) : isnewReset.getD i 0 = 0 := by
  rw [List.getD_eq_getElem?_getD]
  unfold isnewReset
  rw [List.getElem?_replicate]
  split <;> rfl

lemma isnew_fresh_fst (m : Nat) : (isnew m isnewReset).1 = true := by
  rw [isnew_fst, getD_isnewReset]
  simp

/-- `mkPreheader` succeeds whenever the mid and the header length are
bytes and the body does not end in a newline. -/
lemma mkPreheader_ok (mid : Nat) (header : Option (List Nat))
    (buf : List Nat) (qos : Bool) (hmid : mid < 256)
    (hh : hdrLen header < 256) (hnl : endsNl buf = false) :
    mkPreheader mid header buf qos
      = .ok (phBytes mid header buf qos) := by
  unfold phBytes
  unfold mkPreheader
  rw [setByte_nat _ hmid, except_bind_ok, setByte_nat _ hh, except_bind_ok]
  have h2 : ((buf.length &&& 0xFF : Nat) : Int) - (if endsNl buf then 1 else 0)
      = ((buf.length &&& 255 : Nat) : Int) := by
    rw [hnl]
    norm_num
  rw [h2, setByte_nat _ (by rw [land_255_eq_mod]; omega), except_bind_ok,
      setByte_nat _ (by rw [land_255_eq_mod]; omega), except_bind_ok,
      setByte_nat _ (by split <;> norm_num), except_bind_ok]
  rfl

lemma mem_of_getLast?_eq (l : List Nat) (a : Nat) (h : l.getLast? = some a) :
    a ∈ l := by
  obtain ⟨hne, rfl⟩ := List.mem_getLast?_eq_getLast (l := l) (x := a) h
  exact List.getLast_mem hne

lemma hexHeader_ne_10 (header : Option (List Nat)) :
    ∀ x ∈ hexHeader header, x ≠ 10 := by
  cases header with
  | none => intro x hx; simp [hexHeader] at hx
  | some h => intro x hx; exact hexlify_ne_10 h x (by simpa [hexHeader] using hx)

lemma phBytes_length (mid : Nat) (header : Option (List Nat)) (buf : List Nat)
    (qos : Bool) : (phBytes mid header buf qos).length = 5 := rfl

lemma phBytes_mem_lt (mid : Nat) (header : Option (List Nat)) (buf : List Nat)
    (qos : Bool) (hmid : mid < 256) (hh : hdrLen header < 256) :
    ∀ b ∈ phBytes mid header buf qos, b < 256 := by
  intro b hb
  simp only [phBytes, List.mem_cons, List.not_mem_nil, or_false] at hb
  rcases hb with rfl | rfl | rfl | rfl | rfl
  · exact hmid
  · exact hh
  · rw [land_255_eq_mod]; omega
  · rw [land_255_eq_mod]; omega
  · split <;> norm_num

/-- `Connection._process_str` on a fresh de-dup state recovers the header
and the body from the line the client encoder produced. -/
lemma processLine_decode (mid : Nat) (header : Option (List Nat))
    (buf : List Nat) (qos : Bool) (hmid : mid < 256)
    (hhdr : ∀ h, header = some h →
      1 ≤ h.length ∧ h.length ≤ 255 ∧ ∀ b ∈ h, b < 256)
    (_hbuf : ∀ b ∈ buf, b < 256) :
    processLine isnewReset (-1)
        (hexlify (phBytes mid header buf qos) ++ hexHeader header ++ buf)
      = some ⟨(isnew mid isnewReset).2, -1, [(header, buf)],
              if qos then [ackWire mid] else []⟩ := by
  have hh256 : hdrLen header < 256 := by
    cases header with
    | none => norm_num [hdrLen]
    | some h =>
        have := (hhdr h rfl).2.1
        simp only [hdrLen]
        omega
  have hA10 : (hexlify (phBytes mid header buf qos)).length = 10 := by
    rw [hexlify_length, phBytes_length]
  have htake : ((hexlify (phBytes mid header buf qos) ++ hexHeader header
      ++ buf)).take 10 = hexlify (phBytes mid header buf qos) := by
    rw [List.append_assoc]
    exact List.take_left' hA10
  unfold processLine
  rw [htake, unhexlify_hexlify _ (phBytes_mem_lt mid header buf qos hmid hh256),
      option_bind_some, if_pos (phBytes_length mid header buf qos)]
  have hdrop10 : ((hexlify (phBytes mid header buf qos) ++ hexHeader header
      ++ buf)).drop 10 = hexHeader header ++ buf := by
    rw [List.append_assoc]
    exact List.drop_left' hA10
  have hq44 : ((if qos then 1 else 0 : Nat) = 44) = False := by
    cases qos <;> simp
  have hacks : (if ((if qos then 1 else 0 : Nat) &&& 1 = 1)
      then [ackWire mid] else []) = (if qos then [ackWire mid] else []) := by
    cases qos <;> rfl
  simp only [show (phBytes mid header buf qos).getD 0 0 = mid from rfl,
             show (phBytes mid header buf qos).getD 1 0 = hdrLen header from rfl,
             show (phBytes mid header buf qos).getD 4 0
               = (if qos then 1 else 0) from rfl,
             ite_self, hq44, if_false, isnew_fresh_fst, if_true, hacks, hdrop10]
  cases header with
  | none =>
      simp only [hdrLen, hexHeader, List.nil_append]
      rw [if_neg (by norm_num)]
      rfl
  | some h =>
      simp only [hdrLen, hexHeader]
      rw [if_pos (by have := (hhdr h rfl).1; omega),
          List.take_left' (by rw [hexlify_length]; ring :
            (hexlify h).length = h.length * 2),
          unhexlify_hexlify h (hhdr h rfl).2.2, option_bind_some,
          List.drop_left' (by rw [List.length_append, hA10, hexlify_length]; ring :
            (hexlify (phBytes mid (some h) buf qos) ++ hexlify h).length
              = 10 + h.length * 2)]
      rfl

/-! ## C1: framing round-trip -/

/-- C1 (amended): for every mid in 0..255, header either absent or of
length 1..255, and body of length at most 65535 containing no newline
byte, decoding the wire frame produced by the client's write encoder
with the server's decoder yields the same header and the same body.
(A present-but-empty header is the one exception: it is encoded with
`hlen = 0` and decodes as an absent header.) -/
theorem framing_roundtrip (mid : Nat) (header : Option (List Nat))
    (buf : List Nat) (qos : Bool) (hmid : mid ≤ 255)
    (hhdr : ∀ h, header = some h →
      1 ≤ h.length ∧ h.length ≤ 255 ∧ ∀ b ∈ h, b < 256)
    (_hlen : buf.length ≤ 65535) (hbuf : ∀ b ∈ buf, b < 256)
    (hnl10 : 10 ∉ buf) :
    ∃ wire out, encodeWire mid header buf qos = .ok wire ∧
      processLine isnewReset (-1) (firstLine wire) = some out ∧
      out.ret = [(header, buf)] := by
  have hend : endsNl buf = false := by
    cases hE : endsNl buf
    · rfl
    · exfalso
      unfold endsNl at hE
      have h10 : buf.getLast? = some 10 := by simpa using hE
      exact hnl10 (mem_of_getLast?_eq buf 10 h10)
  have hh256 : hdrLen header < 256 := by
    cases header with
    | none => norm_num [hdrLen]
    | some h =>
        have := (hhdr h rfl).2.1
        simp only [hdrLen]
        omega
  have hph := mkPreheader_ok mid header buf qos (by omega) hh256 hend
  have hwire : encodeWire mid header buf qos
      = .ok (hexlify (phBytes mid header buf qos) ++ hexHeader header
          ++ buf ++ [10]) := by
    unfold encodeWire
    rw [hph, hend]
    rfl
  have hele : ∀ x ∈ hexlify (phBytes mid header buf qos)
      ++ hexHeader header ++ buf, x ≠ 10 := by
    intro x hx
    rcases List.mem_append.1 hx with hx | hx
    · rcases List.mem_append.1 hx with hx | hx
      · exact hexlify_ne_10 _ x hx
      · exact hexHeader_ne_10 header x hx
    · exact fun heq => hnl10 (heq ▸ hx)
  have hfl : firstLine (hexlify (phBytes mid header buf qos)
        ++ hexHeader header ++ buf ++ [10])
      = hexlify (phBytes mid header buf qos) ++ hexHeader header ++ buf :=
    firstLine_append _ [] hele
  refine ⟨_, ⟨(isnew mid isnewReset).2, -1, [(header, buf)],
    if qos then [ackWire mid] else []⟩, hwire, ?_, rfl⟩
  rw [hfl]
  exact processLine_decode mid header buf qos (by omega) hhdr hbuf

/-- C1 counterexample: a present-but-empty header is not recovered.  The
client accepts `write(bytearray(0), b"a")` and encodes `hlen = 0`; the
server decodes the header as `None`, not as an empty header, so
`decode(encode(m)) ≠ m` for this admissible message. -/
theorem framing_empty_header_counterexample :
    ((encodeWire 1 (some []) [97] true).toOption.bind
        (fun w => processLine isnewReset (-1) (firstLine w))).map ProcOut.ret
      = some [(none, [97])] ∧
    some [((none : Option (List Nat)), [97])]
      ≠ some [(some ([] : List Nat), [97])] := by
  constructor
  · decide
  · decide

/-- Witness for C1 (amended) at `mid = 1`, header `[0xAB]`,
body `"hi"`. -/
theorem framing_roundtrip_witness :
    ∃ wire out, encodeWire 1 (some [0xAB]) [104, 105] true = .ok wire ∧
      processLine isnewReset (-1) (firstLine wire) = some out ∧
      out.ret = [(some [0xAB], [104, 105])] :=
  framing_roundtrip 1 (some [0xAB]) [104, 105] true (by norm_num)
    (fun h heq => by cases heq; exact ⟨by norm_num, by norm_num, by decide⟩)
    (by norm_num) (by decide) (by decide)

/-! ## C2: oversized writes fail synchronously and atomically -/

/-- C2: a body longer than 65535 bytes makes `write` fail with the
value-too-large error while leaving the connection state untouched: no
bytes are sent, no mid is drawn from the generator, and the pending-ACK
set is unchanged — on both the client `Client.write` and the server
`Connection.write`. -/
theorem write_too_large (st : ClientState) (c : Conn)
    (header header' : Option (List Nat)) (buf line : List Nat) (q q' : Bool)
    (h1 : buf.length > 65535) (h2 : line.length > 65535) :
    clientWrite st header buf q = (st, .error "Message longer than 65535") ∧
    serverWrite c header' line q' = (c, .error "Message longer than 65535") := by
  unfold clientWrite serverWrite
  rw [if_pos h1, if_pos h2]
  exact ⟨rfl, rfl⟩

/-- Witness for C2 at a 65536-byte body. -/
theorem write_too_large_witness :
    (List.replicate 65536 (0 : Nat)).length > 65535 ∧
    clientWrite ⟨0, [], []⟩ none (List.replicate 65536 0) true
      = (⟨0, [], []⟩, .error "Message longer than 65535") ∧
    serverWrite (newConn 0 [] []) none (List.replicate 65536 0) true
      = (newConn 0 [] [], .error "Message longer than 65535") := by
  have h : (List.replicate 65536 (0 : Nat)).length > 65535 := by
    rw [List.length_replicate]; norm_num
  obtain ⟨hc, hs⟩ := write_too_large ⟨0, [], []⟩ (newConn 0 [] []) none none
    (List.replicate 65536 0) (List.replicate 65536 0) true true h h
  exact ⟨h, hc, hs⟩

/-! ## C9: newline-terminated bodies of length 0 mod 256 are rejected -/

lemma gmidVal_lt_256 (n : Nat) : gmidVal n < 256 := by
  have := gmidVal_le_255 n
  omega

/-- C9: for every newline-terminated body whose length is a positive
multiple of 256 (within the 65535 limit) and any header of length at
most 255, `Client.write` raises `ValueError`: `preheader[2]` is computed
as `(len(buf) & 0xFF) - 1 = -1`, which is not a valid `bytearray` byte. -/
theorem write_mult256_newline_fails (st : ClientState)
    (header : Option (List Nat)) (buf : List Nat) (qos : Bool)
    (hpos : 0 < buf.length) (hmod : buf.length % 256 = 0)
    (hmax : buf.length ≤ 65535) (hnl : endsNl buf = true)
    (hh : ∀ h, header = some h → h.length ≤ 255) :
    clientWrite st header buf qos
      = ({ st with midCount := st.midCount + 1 }, .error "byte out of range") := by
  unfold clientWrite
  rw [if_neg (by omega)]
  have hb1 : hdrLen header < 256 := by
    cases header with
    | none => norm_num [hdrLen]
    | some hd =>
        have := hh hd rfl
        simp only [hdrLen]
        omega
  have henc : encodeWire (gmidVal st.midCount) header buf qos
      = .error "byte out of range" := by
    unfold encodeWire mkPreheader
    rw [setByte_nat _ (gmidVal_lt_256 st.midCount), except_bind_ok,
        setByte_nat _ hb1, except_bind_ok]
    have h2 : ((buf.length &&& 0xFF : Nat) : Int) - (if endsNl buf then 1 else 0)
        = -1 := by
      rw [hnl, land_255_eq_mod, hmod]
      norm_num
    rw [h2]
    rfl
  simp only [henc]

/-- Witness for C9: a 256-byte newline-terminated body. -/
theorem write_mult256_newline_fails_witness :
    0 < (List.replicate 255 (97 : Nat) ++ [10]).length ∧
    (List.replicate 255 (97 : Nat) ++ [10]).length % 256 = 0 ∧
    (List.replicate 255 (97 : Nat) ++ [10]).length ≤ 65535 ∧
    endsNl (List.replicate 255 (97 : Nat) ++ [10]) = true ∧
    clientWrite ⟨0, [], []⟩ none (List.replicate 255 (97 : Nat) ++ [10]) true
      = (⟨1, [], []⟩, .error "byte out of range") := by
  have hl : (List.replicate 255 (97 : Nat) ++ [10]).length = 256 := by simp
  have he : endsNl (List.replicate 255 (97 : Nat) ++ [10]) = true := by
    simp [endsNl]
  refine ⟨by rw [hl]; norm_num, by rw [hl], by rw [hl]; norm_num, he, ?_⟩
  exact write_mult256_newline_fails ⟨0, [], []⟩ none _ true
    (by rw [hl]; norm_num) (by rw [hl]) (by rw [hl]; norm_num) he
    (fun h heq => by cases heq)

/-! ## C6: keepalive intervals -/

/-- C6 counterexample: with the default `timeout = 1500`, the
`src/client.py` engine arms its keepalive every 750 ms and the server
`Connection` every 0.75 s — not `timeout / 4 = 375` ms. -/
theorem keepalive_interval_counterexample :
    clientTimKa 1500 = 750 ∧ (1500 : Nat) / 4 = 375 ∧ (750 : Nat) ≠ 375 ∧
    serverTimKa 1500 = 3 / 4 ∧ ((3 : ℚ) / 4) ≠ (1500 : ℚ) / 4 / 1000 := by
  refine ⟨rfl, rfl, by decide, ?_, by norm_num⟩
  unfold serverTimKa serverToSecs
  norm_num

/-- C6 (amended): the keepalive interval is `timeout // 4` only in the
`src/iot/client.py` engine; the `src/client.py` engine uses
`timeout // 2` and the server `Connection` uses `to_secs / 2`
(i.e. half the timeout, in seconds). -/
theorem keepalive_intervals (t : Nat) (tq : ℚ) :
    clientTimKa t = t / 2 ∧ iotClientTimKa t = t / 4 ∧
    serverTimKa tq * 1000 = tq / 2 := by
  refine ⟨rfl, rfl, ?_⟩
  unfold serverTimKa serverToSecs
  field_simp
  ring

/-! ## C7: ACK classification -/

lemma option_bind_eq_some {α β : Type} {x : Option α} {f : α → Option β} {b : β}
    (h : (x >>= f) = some b) : ∃ a, x = some a ∧ f a = some b := by
  cases x with
  | none => cases h
  | some a => exact ⟨a, rfl, h⟩

/-- C7 counterexample: the client reader classifies a frame whose
preheader byte 4 is 0xFF as an ACK (`0xFF & 0x2C == 0x2C`): with mid 5
pending, the frame `[5, 0, 0, 0, 0xFF]` empties the pending-ACK set and
delivers nothing — although `0xFF ≠ 0x2C`. -/
theorem ack_classification_counterexample :
    (clientReaderStep ⟨[5], [], isnewReset⟩ [5, 0, 0, 0, 0xFF] none []).1.acksPend
      = [] ∧
    (clientReaderStep ⟨[5], [], isnewReset⟩ [5, 0, 0, 0, 0xFF] none []).1.lines
      = [] ∧
    (0xFF : Nat) ≠ 0x2C := by decide

/-- C7 (amended): the server (`Connection._process_str`) treats a frame
as an ACK iff preheader byte 4 equals 0x2C exactly; the client
(`Client._reader`) treats it as an ACK iff byte 4 masked with 0x2C gives
0x2C, so values such as 0xFF or 0x3C are also classified as ACKs by the
client.  In either ACK case the mid is discarded from the pending-ACK
state and nothing is delivered; otherwise the pending-ACK state is
untouched. -/
theorem ack_classification (st : ClientRdState) (ph : List Nat)
    (hdr : Option (List Nat)) (body : List Nat)
    (nl : List Nat) (am : Int) (line : List Nat) (sph : List Nat)
    (hsph : unhexlify (line.take 10) = some sph) (hlen5 : sph.length = 5) :
    ((ph.getD 4 0 &&& 0x2C = 0x2C →
        clientReaderStep st ph hdr body
          = ({ st with acksPend := st.acksPend.filter (· ≠ ph.getD 0 0) }, []))
      ∧ (ph.getD 4 0 &&& 0x2C ≠ 0x2C →
        (clientReaderStep st ph hdr body).1.acksPend = st.acksPend))
    ∧ ((sph.getD 4 0 = 0x2C →
        processLine nl am line = some ⟨nl, (sph.getD 0 0 : Int), [], []⟩)
      ∧ (sph.getD 4 0 ≠ 0x2C →
        ∀ out, processLine nl am line = some out → out.ackMid = am)) := by
  refine ⟨⟨?_, ?_⟩, ?_, ?_⟩
  · intro hack
    unfold clientReaderStep
    rw [if_pos hack]
  · intro hnack
    unfold clientReaderStep
    rw [if_neg hnack]
  · intro hack
    unfold processLine
    rw [hsph, option_bind_some, if_pos hlen5, if_pos hack]
    rfl
  · intro hnack out hout
    unfold processLine at hout
    rw [hsph, option_bind_some, if_pos hlen5, if_neg hnack] at hout
    obtain ⟨v, hv, hpure⟩ := option_bind_eq_some hout
    have := Option.some.inj hpure
    rw [← this]

/-- Witness for C7 (amended): a genuine ACK frame with byte 4 = 0x2C is
classified as an ACK by both peers. -/
theorem ack_classification_witness :
    clientReaderStep ⟨[5], [], isnewReset⟩ [5, 0, 0, 0, 0x2C] none []
      = (⟨[], [], isnewReset⟩, []) ∧
    processLine isnewReset (-1) (hexlify [7, 0, 0, 0, 0x2C])
      = some ⟨isnewReset, 7, [], []⟩ := by
  obtain ⟨⟨hc, _⟩, ⟨hs, _⟩⟩ := ack_classification ⟨[5], [], isnewReset⟩
    [5, 0, 0, 0, 0x2C] none [] isnewReset (-1) (hexlify [7, 0, 0, 0, 0x2C])
    [7, 0, 0, 0, 0x2C] (by decide) (by decide)
  constructor
  · exact (hc (by decide)).trans (by decide)
  · exact hs (by decide)

/-! ## C5, C8, C10: handshake dispatch -/

lemma goInit_conns (st : ServerState) (sSock : Nat) (expected : List (List Nat)) :
    (if st.serverSock = none then
      { st with serverSock := some sSock, expected := st.expected ++ expected }
     else st).conns = st.conns := by
  split <;> rfl

lemma goInit_expected (st : ServerState) (sSock : Nat) (expected : List (List Nat)) :
    (if st.serverSock = none then
      { st with serverSock := some sSock, expected := st.expected ++ expected }
     else st).expected
      = if st.serverSock = none then st.expected ++ expected else st.expected := by
  split <;> rfl

lemma updateConns_self (conns : List Nat → Option Conn) (clientId : List Nat)
    (c : Conn) : updateConns conns clientId c clientId = some c := by
  simp [updateConns]

lemma updateConns_ne (conns : List Nat → Option Conn) (clientId : List Nat)
    (c : Conn) (y : List Nat) (h : y ≠ clientId) :
    updateConns conns clientId c y = conns y := by
  simp [updateConns, h]

/-- C5 counterexample: dispatching a valid handshake (byte 0 = 0x2C,
byte 4 = 0xFF, body the client id) on a fresh server sends nothing back:
the dispatch only spawns the reader and keepalive tasks, so no ACK frame
(and no frame at all) is written in reply to the handshake. -/
theorem handshake_no_ack_counterexample :
    (go freshServer handshakeData 7 5 [[99, 49]]).map (fun r => r.2)
      = some [Effect.spawnRead, Effect.spawnKeepalive] ∧
    (∀ bs, Effect.sendBytes bs ∉ [Effect.spawnRead, Effect.spawnKeepalive]) := by
  constructor
  · decide
  · intro bs
    simp

/-- C5 (amended): the server sends no reply frame to the handshake at
all — in particular no ACK frame.  Dispatch installs or rebinds the
Connection and spawns its tasks without writing to the socket; the
first transmission towards the client is the keepalive `'\n'` sent by
the keepalive task, which is not an ACK frame, and the client uses
server keepalives in place of a handshake ACK. -/
theorem handshake_no_ack (st : ServerState) (data : List Nat)
    (cSock sSock : Nat) (expected : List (List Nat)) (ph : List Nat)
    (hph : unhexlify ((firstLine data).take 10) = some ph)
    (hlen5 : ph.length = 5) (hmid : ph.getD 0 0 = 0x2C)
    (_hhs : ph.getD 4 0 = 0xFF) :
    ∃ st' effs, go st data cSock sSock expected = some (st', effs) ∧
      (∀ bs, Effect.sendBytes bs ∉ effs) ∧
      (∀ m, serverKeepaliveWire ≠ ackWire m) := by
  unfold go
  simp only [hph, option_bind_some, if_neg (by omega : ¬ph.length = 0), hmid]
  rw [if_neg (by norm_num : ¬(44 : Nat) ≠ 44),
      if_neg (by omega : ¬ph.length ≠ 5), goInit_conns]
  have hka : ∀ m, serverKeepaliveWire ≠ ackWire m := by
    intro m h
    have hlh := congrArg List.length h
    simp [serverKeepaliveWire, ackWire, hexlify_length] at hlh
  split
  · split
    · refine ⟨_, _, rfl, ?_, hka⟩
      intro bs
      simp
    · refine ⟨_, _, rfl, ?_, hka⟩
      intro bs
      simp
  · refine ⟨_, _, rfl, ?_, hka⟩
    intro bs
    split <;> simp

/-- Witness for C5 (amended) at the concrete handshake. -/
theorem handshake_no_ack_witness :
    ∃ st' effs, go freshServer handshakeData 7 5 [[99, 49]]
      = some (st', effs) ∧
      (∀ bs, Effect.sendBytes bs ∉ effs) ∧
      (∀ m, serverKeepaliveWire ≠ ackWire m) :=
  handshake_no_ack freshServer handshakeData 7 5 [[99, 49]]
    [0x2C, 0, 2, 0, 0xFF] (by decide) (by decide) (by decide) (by decide)

/-- C8: a handshake for a client id whose Connection exists and has
`status() == False` rebinds that very Connection: the map still sends
the id to (an update of) the same record, no other map entry changes,
and `_reconnect` modifies only the socket and the two write-pause flags
— every other field is preserved. -/
theorem reconnect_binding (st : ServerState) (data : List Nat)
    (cSock sSock : Nat) (expected : List (List Nat)) (ph : List Nat) (c : Conn)
    (hph : unhexlify ((firstLine data).take 10) = some ph)
    (hlen5 : ph.length = 5) (hmid : ph.getD 0 0 = 0x2C)
    (hc : st.conns ((firstLine data).drop 10) = some c)
    (hsock : c.sock = none) :
    ∃ st', go st data cSock sSock expected = some (st', []) ∧
      st'.conns ((firstLine data).drop 10) = some (reconnect c cSock) ∧
      (∀ y, y ≠ (firstLine data).drop 10 → st'.conns y = st.conns y) ∧
      (reconnect c cSock).sock = some cSock ∧
      (reconnect c cSock).wrPause = true ∧
      (reconnect c cSock).awaitClient = true ∧
      (reconnect c cSock).clId = c.clId ∧
      (reconnect c cSock).initStr = c.initStr ∧
      (reconnect c cSock).newlist = c.newlist ∧
      (reconnect c cSock).midCount = c.midCount ∧
      (reconnect c cSock).lines = c.lines ∧
      (reconnect c cSock).acksPend = c.acksPend ∧
      (reconnect c cSock).ackMid = c.ackMid ∧
      (reconnect c cSock).txMid = c.txMid ∧
      (reconnect c cSock).sent = c.sent := by
  have hcs : connStatus c = false := by
    unfold connStatus
    rw [hsock]
    rfl
  unfold go
  simp only [hph, option_bind_some, if_neg (by omega : ¬ph.length = 0), hmid]
  rw [if_neg (by norm_num : ¬(44 : Nat) ≠ 44),
      if_neg (by omega : ¬ph.length ≠ 5), goInit_conns]
  split
  · next c' heq =>
      rw [hc] at heq
      cases heq
      rw [if_neg (by simp [hcs])]
      refine ⟨_, rfl, updateConns_self _ _ _, ?_, rfl, rfl, rfl, rfl, rfl,
        rfl, rfl, rfl, rfl, rfl, rfl, rfl⟩
      intro y hy
      exact updateConns_ne _ _ _ y hy
  · next heq =>
      rw [hc] at heq
      cases heq

/-- Witness for C8: rebinding the concrete failed Connection `wConn`. -/
theorem reconnect_binding_witness :
    ∃ st', go wState handshakeData 7 5 [] = some (st', []) ∧
      st'.conns ((firstLine handshakeData).drop 10) = some (reconnect wConn 7) ∧
      (∀ y, y ≠ (firstLine handshakeData).drop 10 →
        st'.conns y = wState.conns y) ∧
      (reconnect wConn 7).sock = some 7 ∧
      (reconnect wConn 7).wrPause = true ∧
      (reconnect wConn 7).awaitClient = true ∧
      (reconnect wConn 7).clId = wConn.clId ∧
      (reconnect wConn 7).initStr = wConn.initStr ∧
      (reconnect wConn 7).newlist = wConn.newlist ∧
      (reconnect wConn 7).midCount = wConn.midCount ∧
      (reconnect wConn 7).lines = wConn.lines ∧
      (reconnect wConn 7).acksPend = wConn.acksPend ∧
      (reconnect wConn 7).ackMid = wConn.ackMid ∧
      (reconnect wConn 7).txMid = wConn.txMid ∧
      (reconnect wConn 7).sent = wConn.sent :=
  reconnect_binding wState handshakeData 7 5 [] [0x2C, 0, 2, 0, 0xFF] wConn
    (by decide) (by decide) (by decide) (by decide) (by decide)

/-- C10: a valid handshake for an id with no existing Connection
installs a new Connection in the id map exactly as for an expected id —
the installed value does not depend on the expected set, the socket is
kept (never refused), and the only difference is the warning, printed
iff the id is not in the expected set. -/
theorem unexpected_client_accepted (st : ServerState) (data : List Nat)
    (cSock sSock : Nat) (expected : List (List Nat)) (ph : List Nat)
    (hph : unhexlify ((firstLine data).take 10) = some ph)
    (hlen5 : ph.length = 5) (hmid : ph.getD 0 0 = 0x2C)
    (hnone : st.conns ((firstLine data).drop 10) = none) :
    ∃ st' effs, go st data cSock sSock expected = some (st', effs) ∧
      st'.conns ((firstLine data).drop 10)
        = some (newConn cSock ((firstLine data).drop 10)
            (data.drop ((firstLine data).length + 1))) ∧
      (∀ y, y ≠ (firstLine data).drop 10 → st'.conns y = st.conns y) ∧
      Effect.closeSock ∉ effs ∧
      (Effect.warnUnexpected ∈ effs ↔
        (firstLine data).drop 10 ∉
          (if st.serverSock = none then st.expected ++ expected
           else st.expected)) := by
  unfold go
  simp only [hph, option_bind_some, if_neg (by omega : ¬ph.length = 0), hmid]
  rw [if_neg (by norm_num : ¬(44 : Nat) ≠ 44),
      if_neg (by omega : ¬ph.length ≠ 5), goInit_conns]
  split
  · next c' heq =>
      rw [hnone] at heq
      cases heq
  · next heq =>
      rw [goInit_expected]
      refine ⟨_, _, rfl, updateConns_self _ _ _, ?_, ?_, ?_⟩
      · intro y hy
        exact updateConns_ne _ _ _ y hy
      · split <;> simp
      · split <;> simp_all

/-- Witness for C10: the concrete handshake on a fresh server with an
empty expected set — the unexpected id is accepted and the warning is
due. -/
theorem unexpected_client_accepted_witness :
    ∃ st' effs, go freshServer handshakeData 7 5 [] = some (st', effs) ∧
      st'.conns ((firstLine handshakeData).drop 10)
        = some (newConn 7 ((firstLine handshakeData).drop 10)
            (handshakeData.drop ((firstLine handshakeData).length + 1))) ∧
      (∀ y, y ≠ (firstLine handshakeData).drop 10 →
        st'.conns y = freshServer.conns y) ∧
      Effect.closeSock ∉ effs ∧
      (Effect.warnUnexpected ∈ effs ↔
        (firstLine handshakeData).drop 10 ∉
          (if freshServer.serverSock = none then freshServer.expected ++ []
           else freshServer.expected)) :=
  unexpected_client_accepted freshServer handshakeData 7 5 []
    [0x2C, 0, 2, 0, 0xFF] (by decide) (by decide) (by decide) (by decide)

end MpyIot
